import Mathlib

/-!
Verification of the CRIRES_RV forward model (src/model.py) and its
orchestration (src/viper.py) against the natural-language specification.

Conventions of the shallow embedding:
* numpy float arrays are modelled as `List ℝ`; machine floats are modelled
  as real numbers, so "within floating-point tolerance" becomes exact
  equality over `ℝ`;
* values that numpy would render non-finite (nan or inf) are modelled as
  `none` in `Option ℝ` where the code branches on finiteness;
* elementwise products of equal-length arrays are modelled with `List.zip`
  (numpy raises on mismatched shapes, so theorems carry the corresponding
  length hypotheses where a length could differ);
* the external nonlinear solver (scipy curve_fit) and linear solver
  (numpy lstsq) are opaque collaborators and enter as function parameters.
-/

namespace CriresRV

noncomputable section

/-- Speed of light in km/s, module constant of model.py (line 8). -/
def c : ℝ := 3e5

/-- In-place unit-sum normalisation step shared by all kernels of model.py
(the statement IP_k /= IP_k.sum() of each kernel body). -/
def normSum (l : List ℝ) : List ℝ := l.map fun t => t / l.sum

/-- Gauss error function, used by scipy.special.erf in model.py. -/
def erf (x : ℝ) : ℝ := 2 / Real.sqrt Real.pi * ∫ t in (0:ℝ)..x, Real.exp (-t ^ 2)

/-- Pre-normalisation values of the Gaussian IP (model.py lines 12-14). -/
def IP_raw (vk : List ℝ) (s : ℝ) : List ℝ :=
  vk.map fun v => Real.exp (-(v / s) ^ 2 / 2)

/-- Gaussian IP (model.py lines 12-16). -/
def IP (vk : List ℝ) (s : ℝ) : List ℝ := normSum (IP_raw vk s)

/-- Pre-normalisation values of the super-Gaussian IP (model.py line 20);
the exponentiation abs(vk/s)**e is real exponentiation of a nonnegative base. -/
def IP_sg_raw (vk : List ℝ) (s e : ℝ) : List ℝ :=
  vk.map fun v => Real.exp (-(|v / s| ^ e))

/-- Super-Gaussian IP (model.py lines 18-22). -/
def IP_sg (vk : List ℝ) (s e : ℝ) : List ℝ := normSum (IP_sg_raw vk s e)

/-- Pre-normalisation values of the asymmetric (skewed) Gaussian IP
(model.py lines 24-38): scale readjustment, recentering, Gaussian times
an error-function skew factor. -/
def IP_ag_raw (vk : List ℝ) (s a : ℝ) : List ℝ :=
  let b := a / Real.sqrt (1 + a ^ 2) * Real.sqrt (2 / Real.pi)
  let ss := s / Real.sqrt (1 - b ^ 2)
  vk.map fun v =>
    Real.exp (-((v + ss * b) / ss) ^ 2 / 2) *
      (1 + erf (a / Real.sqrt 2 * ((v + ss * b) / ss)))

/-- Asymmetric (skewed) Gaussian IP (model.py lines 24-40). -/
def IP_ag (vk : List ℝ) (s a : ℝ) : List ℝ := normSum (IP_ag_raw vk s a)

/-- Pre-normalisation values of the BiGaussian IP (model.py lines 42-47). -/
def IP_bg_raw (vk : List ℝ) (s1 s2 : ℝ) : List ℝ :=
  let xc := Real.sqrt (2 / Real.pi) * (-s1 ^ 2 + s2 ^ 2) / (s1 + s2)
  vk.map fun v =>
    Real.exp (-(0.5 * ((v + xc) / (if v + xc < 0 then s1 else s2)) ^ 2))

/-- BiGaussian IP (model.py lines 42-49). -/
def IP_bg (vk : List ℝ) (s1 s2 : ℝ) : List ℝ := normSum (IP_bg_raw vk s1 s2)

/-- Pre-normalisation values of the multi-central-Gaussian IP
(model.py lines 51-57): main Gaussian of width s0 plus a background
Gaussian of width 4*s0 and relative amplitude a1/10, clipped at zero. -/
def IP_mcg_raw (vk : List ℝ) (s0 a1 : ℝ) : List ℝ :=
  vk.map fun v =>
    max (Real.exp (-(v / s0) ^ 2) + a1 / 10 * Real.exp (-(v / (4 * s0)) ^ 2)) 0

/-- Multi-central-Gaussian IP (model.py lines 51-59). -/
def IP_mcg (vk : List ℝ) (s0 a1 : ℝ) : List ℝ := normSum (IP_mcg_raw vk s0 a1)

/-- Pre-normalisation values of the Gaussian-spline IP (model.py lines 61-75):
uniformly spaced fixed-width Gaussians, amplitudes squashed by tanh with a
unit amplitude inserted at the central knot, knots recentered by the
amplitude-weighted mean knot position (dx = s = 0.9 substituted). -/
def IP_mg_raw (vk : List ℝ) (a : List ℝ) : List ℝ :=
  let s : ℝ := 0.9
  let na := a.length + 1
  let mid := a.length / 2
  let ta := a.map Real.tanh
  let aa := ta.take mid ++ [(1 : ℝ)] ++ ta.drop mid
  let xl := (List.range na).map fun l : ℕ => (l : ℝ)
  let xm := ((xl.zip aa).map fun p => p.1 * p.2).sum / aa.sum
  vk.map fun v =>
    ((aa.zip xl).map fun p => p.1 * Real.exp (-((v - s * (p.2 - xm)) / s) ^ 2)).sum

/-- Gaussian-spline IP (model.py lines 61-80). -/
def IP_mg (vk : List ℝ) (a : List ℝ) : List ℝ := normSum (IP_mg_raw vk a)

/-- Polynomial with adjacent coefficients, np.polyval(a[::-1], x)
(model.py lines 85-87), evaluated by the Horner scheme. -/
def poly (x : ℝ) (a : List ℝ) : ℝ := a.foldr (fun ai acc => ai + x * acc) 0

/-- Tail of np.interp once the query x exceeds the current knot x1 carrying
value f1: either x lies in the next interval, or we advance; past the last
knot the last value is returned (right clamping). -/
def interpGo (x : ℝ) : ℝ → ℝ → List (ℝ × ℝ) → ℝ
  | _, f1, [] => f1
  | x1, f1, (x2, f2) :: rest =>
      if x ≤ x2 then f1 + (f2 - f1) * (x - x1) / (x2 - x1) else interpGo x x2 f2 rest

/-- np.interp(x, xp, fp) for one query point: piecewise-linear interpolation
over ascending knots xp with clamping at both ends (numpy raises on empty
xp; that degenerate input is mapped to 0 here and never exercised). -/
def interp (x : ℝ) (xp fp : List ℝ) : ℝ :=
  match xp, fp with
  | x1 :: xs, f1 :: fs => if x ≤ x1 then f1 else interpGo x x1 f1 (xs.zip fs)
  | _, _ => 0

/-- Elementwise product of two arrays, numpy a * b (the embedding zips, so
it silently truncates where numpy would raise on a length mismatch;
theorems carry length hypotheses where lengths could differ). -/
def listMul (a b : List ℝ) : List ℝ := (a.zip b).map fun p => p.1 * p.2

/-- np.convolve(a, v, mode='valid') for len(a) <= len(v), the regime used
by the model (kernel shorter than the signal): entry n of the result is
the full-convolution entry n + len(a) - 1. -/
def convolveValid (a v : List ℝ) : List ℝ :=
  (List.range (v.length + 1 - a.length)).map fun n =>
    ((List.range a.length).map fun m => a.getD m 0 * v.getD (n + a.length - 1 - m) 0).sum

/-- The forward model state set up by model.__init__ (model.py lines
103-115): stellar template interpolant, uniform log-wavelength grid,
gas-cell spectrum on that grid, absorber (telluric) template fluxes on
that grid, IP kernel function of (velocity grid, shape coefficients),
continuum normalisation function, IP half size and central pixel. -/
structure model where
  S_star : ℝ → ℝ
  lnwave_j : List ℝ
  spec_cell_j : List ℝ
  fluxes_molec : List (List ℝ)
  IP : List ℝ → List ℝ → List ℝ
  func_norm : ℝ → List ℝ → ℝ
  IP_hs : ℕ
  xcen : ℝ

/-- Step size of the uniform grid, self.dx (model.py line 110). -/
def model.dx (m : model) : ℝ := m.lnwave_j.getD 1 0 - m.lnwave_j.getD 0 0

/-- IP velocity grid, self.vk = np.arange(-IP_hs, IP_hs+1) * dx * c
(model.py line 112). -/
def model.vk (m : model) : List ℝ :=
  (List.range (2 * m.IP_hs + 1)).map fun k : ℕ => ((k : ℝ) - (m.IP_hs : ℝ)) * m.dx * c

/-- Valid grid, self.lnwave_j_eff = self.lnwave_j[IP_hs:-IP_hs]
(model.py line 113).  Python slice semantics: the stop index -IP_hs means
length - IP_hs for IP_hs >= 1, but for IP_hs = 0 the slice [0:-0] = [0:0]
is empty. -/
def model.lnwave_j_eff (m : model) : List ℝ :=
  (m.lnwave_j.take (if m.IP_hs = 0 then 0 else m.lnwave_j.length - m.IP_hs)).drop m.IP_hs

/-- The loop of model.__call__ lines 123-125: flux_atm starts from ones and
each zipped (coefficient, template) pair multiplies in
flux_mol ** abs(coeff_mol); zip truncates at the shorter operand. -/
def absorberProd (init : List ℝ) : List (ℝ × List ℝ) → List ℝ
  | [] => init
  | p :: ps => absorberProd (listMul init (p.2.map fun t => t ^ |p.1|)) ps

/-- Combined absorber spectrum of model.__call__ (model.py lines 123-129):
the exponent-weighted product of the absorber templates, then, when exactly
one more coefficient than templates was supplied, the shared wavelength
shift realised by np.interp against the grid displaced by log(1 + v/c). -/
def model.flux_atm (m : model) (coeff_atm : List ℝ) : List ℝ :=
  let fa := absorberProd (List.replicate (m.fluxes_molec.headD []).length 1)
    (coeff_atm.zip m.fluxes_molec)
  if coeff_atm.length = m.fluxes_molec.length + 1 then
    m.lnwave_j.map fun w =>
      interp w (m.lnwave_j.map fun t =>
        t - Real.log (1 + coeff_atm.getD (coeff_atm.length - 1) 0 / c)) fa
  else fa

/-- spec_gas of model.__call__ (model.py lines 119-131): the gas-cell
spectrum, multiplied by the combined absorber spectrum when absorber
templates are present. -/
def model.spec_gas (m : model) (coeff_atm : List ℝ) : List ℝ :=
  if m.fluxes_molec = [] then m.spec_cell_j
  else listMul m.spec_cell_j (m.flux_atm coeff_atm)

/-- The pre-convolution signal of model.py line 134:
S_star(lnwave_j - rv/c) * (spec_gas + coeff_bkg[0]). -/
def model.convSignal (m : model) (rv : ℝ) (coeff_atm coeff_bkg : List ℝ) : List ℝ :=
  (m.lnwave_j.zip (m.spec_gas coeff_atm)).map fun p =>
    m.S_star (p.1 - rv / c) * (p.2 + coeff_bkg.getD 0 0)

/-- The IP convolution step of model.__call__ (model.py line 134):
np.convolve(self.IP(self.vk, *coeff_ip), signal, mode='valid'). -/
def model.convStep (m : model) (rv : ℝ) (coeff_ip coeff_atm coeff_bkg : List ℝ) : List ℝ :=
  convolveValid (m.IP m.vk coeff_ip) (m.convSignal rv coeff_atm coeff_bkg)

/-- model.__call__ (model.py lines 117-146): absorber combination, IP
convolution on the valid range, pixel-to-wavelength mapping through the
polynomial wavelength solution, resampling onto the pixels by linear
interpolation against lnwave_j_eff, and continuum normalisation. -/
def model.call (m : model) (pixel : List ℝ) (rv : ℝ)
    (coeff_norm coeff_wave coeff_ip coeff_atm coeff_bkg : List ℝ) : List ℝ :=
  let Sj_eff := m.convStep rv coeff_ip coeff_atm coeff_bkg
  let Si_eff := (pixel.map fun x => Real.log (poly (x - m.xcen) coeff_wave)).map
    fun w => interp w m.lnwave_j_eff Sj_eff
  (pixel.zip Si_eff).map fun p => m.func_norm (p.1 - m.xcen) coeff_norm * p.2

/-- Reformulation of the absorber combination following the specification
wording for claim C5: the shared velocity shift is an explicit optional
argument instead of being detected from the coefficient count; coeff_atm
holds exactly the per-template exponents. -/
def model.flux_atm_spec (m : model) (coeff_atm : List ℝ) (shift : Option ℝ) : List ℝ :=
  let fa := absorberProd (List.replicate (m.fluxes_molec.headD []).length 1)
    (coeff_atm.zip m.fluxes_molec)
  match shift with
  | some v => m.lnwave_j.map fun w =>
      interp w (m.lnwave_j.map fun t => t - Real.log (1 + v / c)) fa
  | none => fa

/-- spec_gas built from the specification-side absorber combination. -/
def model.spec_gas_spec (m : model) (coeff_atm : List ℝ) (shift : Option ℝ) : List ℝ :=
  if m.fluxes_molec = [] then m.spec_cell_j
  else listMul m.spec_cell_j (m.flux_atm_spec coeff_atm shift)

/-- The evaluator with the specification-side absorber combination; apart
from the explicit optional shift it repeats model.call verbatim. -/
def model.call_spec (m : model) (pixel : List ℝ) (rv : ℝ)
    (coeff_norm coeff_wave coeff_ip coeff_atm : List ℝ) (shift : Option ℝ)
    (coeff_bkg : List ℝ) : List ℝ :=
  let Sj_eff := convolveValid (m.IP m.vk coeff_ip)
    ((m.lnwave_j.zip (m.spec_gas_spec coeff_atm shift)).map fun p =>
      m.S_star (p.1 - rv / c) * (p.2 + coeff_bkg.getD 0 0))
  let Si_eff := (pixel.map fun x => Real.log (poly (x - m.xcen) coeff_wave)).map
    fun w => interp w m.lnwave_j_eff Sj_eff
  (pixel.zip Si_eff).map fun p => m.func_norm (p.1 - m.xcen) coeff_norm * p.2

/-- The model with the absorber template list truncated to its first n
entries, used to state claim C10 (the remaining templates are ignored). -/
def model.truncAtm (m : model) (n : ℕ) : model :=
  ⟨m.S_star, m.lnwave_j, m.spec_cell_j, m.fluxes_molec.take n, m.IP,
   m.func_norm, m.IP_hs, m.xcen⟩

/-- A tiny concrete model instance (flat stellar template, two-knot grid,
two one-valued absorber templates, Gaussian IP of width 1) used by the
closed witness theorems. -/
def mSmall : model :=
  ⟨fun _ => 1, [0, 1], [1, 1], [[1, 1], [1, 1]], fun vg _ => IP vg 1,
   fun x a => poly x a, 1, 0⟩

/-- A concrete model with IP_hs = 0 and a four-knot grid, exhibiting the
empty-slice behaviour of lnwave_j[0:-0] (claim C2). -/
def mHsZero : model :=
  ⟨fun _ => 1, [0, 1, 2, 3], [1, 1, 1, 1], [], fun vg _ => IP vg 1,
   fun x a => poly x a, 0, 0⟩

/-- A concrete model with IP_hs = 1 and a four-knot grid, satisfying the
amended hypotheses of claim C2. -/
def mHsOne : model :=
  ⟨fun _ => 1, [0, 1, 2, 3], [1, 1, 1, 1], [], fun vg _ => IP vg 1,
   fun x a => poly x a, 1, 0⟩

/-- The free and fixed parameter groups handed to model.fit (model.py line
148).  The rv entries are the tuples built on lines 152-153 (empty or one
value); the remaining fixed groups are the tuples of lines 160-164. -/
structure FitInput where
  par_rv : List ℝ
  par_norm : List ℝ
  par_wave : List ℝ
  par_ip : List ℝ
  par_atm : List ℝ
  par_bkg : List ℝ
  parfix_rv : List ℝ
  parfix_norm : List ℝ
  parfix_wave : List ℝ
  parfix_ip : List ℝ
  parfix_atm : List ℝ
  parfix_bkg : List ℝ

/-- Python tuple slicing params[slice(a, b)] for 0 <= a <= b (with
clamping), as used with the slices sv, sa, sb, ss, st, sc of model.fit. -/
def sliceTup (l : List ℝ) (a b : ℕ) : List ℝ := (l.take b).drop a

/-- Slice stop sv.stop of model.fit (line 154). -/
def FitInput.s1 (fp : FitInput) : ℕ := fp.par_rv.length

/-- Slice stop sa.stop of model.fit (line 155). -/
def FitInput.s2 (fp : FitInput) : ℕ := fp.s1 + fp.par_norm.length

/-- Slice stop sb.stop of model.fit (line 156). -/
def FitInput.s3 (fp : FitInput) : ℕ := fp.s2 + fp.par_wave.length

/-- Slice stop ss.stop of model.fit (line 157). -/
def FitInput.s4 (fp : FitInput) : ℕ := fp.s3 + fp.par_ip.length

/-- Slice stop st.stop of model.fit (line 158). -/
def FitInput.s5 (fp : FitInput) : ℕ := fp.s4 + fp.par_atm.length

/-- Slice stop sc.stop of model.fit (line 159). -/
def FitInput.s6 (fp : FitInput) : ℕ := fp.s5 + fp.par_bkg.length

/-- The flat solver start vector p0 of model.fit (line 168):
[*par_rv, *par_norm, *par_wave, *par_ip, *par_atm, *par_bkg]. -/
def FitInput.p0 (fp : FitInput) : List ℝ :=
  fp.par_rv ++ fp.par_norm ++ fp.par_wave ++ fp.par_ip ++ fp.par_atm ++ fp.par_bkg

/-- The per-group argument lists that the closure S_model of model.fit
(line 166) passes to the evaluator for a given flat vector params: for each
group in the order rv, norm, wave, ip, atm, bkg, the slice of the flat
vector concatenated with the group's fixed values.  Line 172 rebuilds the
final parameter groups from the solver output with exactly the same
expression. -/
def FitInput.groupArgs (fp : FitInput) (params : List ℝ) :
    List ℝ × List ℝ × List ℝ × List ℝ × List ℝ × List ℝ :=
  (sliceTup params 0 fp.s1 ++ fp.parfix_rv,
   sliceTup params fp.s1 fp.s2 ++ fp.parfix_norm,
   sliceTup params fp.s2 fp.s3 ++ fp.parfix_wave,
   sliceTup params fp.s3 fp.s4 ++ fp.parfix_ip,
   sliceTup params fp.s4 fp.s5 ++ fp.parfix_atm,
   sliceTup params fp.s5 fp.s6 ++ fp.parfix_bkg)

/-- The closure S_model of model.fit (line 166), evaluating the model at
the reassembled groups (the rv group tuple is splatted into the scalar rv
argument; with the intended usage it carries exactly one value). -/
def FitInput.S_model (fp : FitInput) (m : model) (x : List ℝ) (params : List ℝ) : List ℝ :=
  let g := fp.groupArgs params
  m.call x (g.1.headD 0) g.2.1 g.2.2.1 g.2.2.2.1 g.2.2.2.2.1 g.2.2.2.2.2

/-- model.fit (model.py lines 148-176) with the external solver
(scipy.optimize.curve_fit) abstracted as a function from the residual
closure and the start vector to (best parameters, covariance): fit builds
p0, hands the closure to the solver, and re-slices the solver output into
the six groups. -/
def model.fit (m : model) (fp : FitInput)
    (solver : (List ℝ → List ℝ → List ℝ) → List ℝ → List ℝ × List (List ℝ)) :
    (List ℝ × List ℝ × List ℝ × List ℝ × List ℝ × List ℝ) × List (List ℝ) :=
  let r := solver (fun x params => fp.S_model m x params) fp.p0
  (fp.groupArgs r.1, r.2)

/-- Sequencing of possibly non-finite values: some list only when every
entry is finite (a nan propagates through numpy sums and means). -/
def seqO : List (Option ℝ) → Option (List ℝ)
  | [] => some []
  | x :: xs => x.bind fun a => (seqO xs).map fun as => a :: as

/-- np.mean over possibly non-finite values: nan (none) for an empty list
or when any entry is non-finite. -/
def meanO (l : List (Option ℝ)) : Option ℝ :=
  (seqO l).bind fun xs => if xs.length = 0 then none else some (xs.sum / xs.length)

/-- np.std (population standard deviation, ddof = 0) over possibly
non-finite values. -/
def stdO (l : List (Option ℝ)) : Option ℝ :=
  (seqO l).bind fun xs =>
    if xs.length = 0 then none
    else some (Real.sqrt ((xs.map fun t => (t - xs.sum / xs.length) ^ 2).sum / xs.length))

/-- Real square root with nan (none) for negative inputs, modelling
(n - 1) ** 0.5 for integer n. -/
def sqrtO (t : ℝ) : Option ℝ := if t < 0 then none else some (Real.sqrt t)

/-- Division propagating non-finiteness: division by zero (numpy inf or
nan) is non-finite. -/
def divO : Option ℝ → Option ℝ → Option ℝ
  | some a, some b => if b = 0 then none else some (a / b)
  | _, _ => none

/-- The cross-chunk aggregation of viper.py lines 187-189: chunks are
selected by np.isfinite(e_rv), RV is the mean of the selected chunks' rv
values, e_RV their standard deviation divided by sqrt(count - 1).  Each
chunk result is an (rv, e_rv) pair of possibly non-finite values. -/
def aggregateRVs (chunks : List (Option ℝ × Option ℝ)) : Option ℝ × Option ℝ :=
  let sel := (chunks.filter fun ch => ch.2.isSome).map Prod.fst
  (meanO sel, divO (stdO sel) (sqrtO ((sel.length : ℝ) - 1)))

/-- The chunk loop of viper.py lines 184-185: fit_chunk is called for each
order in sequence with no exception handling, so the first chunk whose
solver raises aborts the whole loop and no later chunk is processed. -/
def runChunks : List (Except String (Option ℝ × Option ℝ)) →
    Except String (List (Option ℝ × Option ℝ))
  | [] => Except.ok []
  | Except.error e :: _ => Except.error e
  | Except.ok r :: rest => (runChunks rest).map fun t => r :: t

/-- The RV prior v0 of viper.py line 28, used as initial guess from the
wavelength-solution stage on (assigned to v on line 140, never updated). -/
def v0 : ℝ := -2

/-- Free-parameter names of the six staged curve_fit calls of fit_chunk
(viper.py lines 133-173): the lambda signatures of S_a (line 133), S_b
(line 138), S_vab (line 154), S_va (line 161), S_vabs (line 166) and S
(line 172). -/
def stageFreeParams : List (List String) :=
  [["a0"],
   ["b0", "b1", "b2", "b3"],
   ["v", "a", "b0", "b1", "b2", "b3"],
   ["v", "a", "b0", "b1", "b2", "b3"],
   ["v", "a", "b0", "b1", "b2", "b3", "s"],
   ["v", "a0", "a1", "a2", "a3", "b0", "b1", "b2", "b3", "s"]]

/-- Start vector of stage 1 (viper.py line 134): curve_fit is called
without p0, which defaults to one for the single free parameter. -/
def p0_stage1 : List ℝ := [1]

/-- Start vector of stage 2 (line 142): the polynomial prior bg from
np.polyfit of line 141, not the result of stage 1. -/
def p0_stage2 (bg : List ℝ) : List ℝ := bg

/-- Start vector of stage 3 (line 155): [v, 1, *bg] where v = v0 and bg is
the polynomial prior of line 141, not the fitted b of stage 2. -/
def p0_stage3 (bg : List ℝ) : List ℝ := v0 :: 1 :: bg

/-- Start vector of stage 4 (line 162): [v, 1, *p_vab[2:6]] where v is
still v0 and p_vab is the stage-3 result, so the wavelength coefficients
are re-used while rv and continuum guesses are reset. -/
def p0_stage4 (p_vab : List ℝ) : List ℝ := v0 :: 1 :: (p_vab.drop 2).take 4

/-- Start vector of stage 5 (line 167): [*p_va, 2.2], all stage-4 fitted
values plus the default IP width. -/
def p0_stage5 (p_va : List ℝ) : List ℝ := p_va ++ [2.2]

/-- Start vector of stage 6 (line 173): [*p_vabs[:2]] + [0]*3 +
[*p_vabs[2:]], the stage-5 fitted values with three new continuum
coefficients initialised to zero. -/
def p0_stage6 (p_vabs : List ℝ) : List ℝ := p_vabs.take 2 ++ [0, 0, 0] ++ p_vabs.drop 2

/-- numpy astype(int): truncation toward zero. -/
def truncInt (t : ℝ) : ℤ := if 0 ≤ t then ⌊t⌋ else ⌈t⌉

/-- numpy integer indexing arr[i] with negative indices counting from the
end (an out-of-range access raises in numpy; it is mapped to 0 here and
not exercised by the theorems). -/
def getWrap (l : List ℝ) (i : ℤ) : ℝ :=
  if i < 0 then l.getD (l.length - (-i).toNat) 0 else l.getD i.toNat 0

/-- Gaussian offset positions vl of model_bnd.base (model.py line 238; the
line-237 assignment is immediately overwritten). -/
def vlOffsets : List ℝ := [-1.4, -0.7, 0, 0.7, 1.4]

/-- The band-matrix forward model state (model.py class model_bnd): the
model fields plus the base-function attributes x, bnd, BBxjl, Bxk that
model_bnd.base assigns on self (absent before the first base call, hence
Option).  In model_bnd.base the stored IP slot is read as the trial trace
polynomial coefficients bg (lines 231-233). -/
structure model_bnd where
  S_star : ℝ → ℝ
  lnwave_j : List ℝ
  spec_cell_j : List ℝ
  fluxes_molec : List (List ℝ)
  IP : List ℝ
  func_norm : ℝ → List ℝ → ℝ
  IP_hs : ℕ
  xcen : ℝ
  x : Option (List ℝ)
  bnd : Option (List (List ℤ))
  BBxjl : Option (List (List (List ℝ)))
  Bxk : Option (List (List ℝ))

/-- model_bnd.base (model.py lines 226-249): maps the trial trace to
grid-index space, builds the band index table bnd (one row of 2*IP_hs+1
grid indices per pixel), the Gaussian basis tensor BBxjl and the
pixel-space Vandermonde design matrix Bxk (vander(x - mean x, degk)
reversed to ascending powers), and stores all of them, together with x,
on the object, overwriting any previous values. -/
def model_bnd.base (st : model_bnd) (x : List ℝ) (degk : ℕ) (sig_k : ℝ) : model_bnd :=
  let lnwave_obs := x.map fun t => Real.log (poly (t - st.xcen) st.IP)
  let jgrid := (List.range st.lnwave_j.length).map fun j : ℕ => (j : ℝ)
  let jx := lnwave_obs.map fun w => interp w st.lnwave_j jgrid
  let bnd := jx.map fun jv =>
    (List.range (2 * st.IP_hs + 1)).map fun k : ℕ => truncInt jv + (k : ℤ) - (st.IP_hs : ℤ)
  let BBxjl := (bnd.zip lnwave_obs).map fun pb =>
    pb.1.map fun jidx => vlOffsets.map fun vl =>
      Real.exp (-(getWrap st.lnwave_j jidx - pb.2 + sig_k * vl) ^ 2 / sig_k ^ 2)
  let xmean := x.sum / x.length
  let Bxk := x.map fun t => (List.range degk).map fun k : ℕ => (t - xmean) ^ k
  ⟨st.S_star, st.lnwave_j, st.spec_cell_j, st.fluxes_molec, st.IP, st.func_norm,
   st.IP_hs, st.xcen, some x, some bnd, some BBxjl, some Bxk⟩

/-- model_bnd.Axk (model.py lines 251-256): when base kwargs are passed,
self.base(**kwargs) is executed first (mutating the object); then the
design tensor Axkl = einsum('xj,xjl,xk->xkl') of the starlight-times-cell
band values, the Gaussian basis and the polynomial design is returned
together with the (possibly updated) state. -/
def model_bnd.Axk (st : model_bnd) (v : ℝ) (baseArgs : Option (List ℝ × ℕ × ℝ)) :
    model_bnd × List (List (List ℝ)) :=
  let st1 := match baseArgs with
    | some b => st.base b.1 b.2.1 b.2.2
    | none => st
  let g := listMul (st1.lnwave_j.map fun w => st1.S_star (w - v / c)) st1.spec_cell_j
  let bnd := st1.bnd.getD []
  let BB := st1.BBxjl.getD []
  let Bk := st1.Bxk.getD []
  let A := (List.range bnd.length).map fun p : ℕ =>
    (Bk.getD p []).map fun bx =>
      (List.range vlOffsets.length).map fun l : ℕ =>
        (((bnd.getD p []).zip (BB.getD p [])).map fun pj =>
          getWrap g pj.1 * pj.2.getD l 0 * bx).sum
  (st1, A)

/-- model_bnd.fit (model.py lines 265-267) with numpy lstsq abstracted as a
function parameter: it delegates to Axk (inheriting its state effect) and
solves the flattened linear system. -/
def model_bnd.fit (st : model_bnd) (f : List ℝ) (v : ℝ)
    (baseArgs : Option (List ℝ × ℕ × ℝ))
    (lstsq : List (List (List ℝ)) → List ℝ → List ℝ) : model_bnd × List ℝ :=
  let r := st.Axk v baseArgs
  (r.1, lstsq r.2 f)

/-- model.__call__ as a state transformer: the method body (model.py lines
117-146) contains no assignment to self, so the object is returned
unchanged next to the value. -/
def model.callSt (m : model) (pixel : List ℝ) (rv : ℝ)
    (coeff_norm coeff_wave coeff_ip coeff_atm coeff_bkg : List ℝ) : model × List ℝ :=
  (m, m.call pixel rv coeff_norm coeff_wave coeff_ip coeff_atm coeff_bkg)

/-- model.fit as a state transformer: the method body (model.py lines
148-176) assigns only local names, so the object is returned unchanged. -/
def model.fitSt (m : model) (fp : FitInput)
    (solver : (List ℝ → List ℝ → List ℝ) → List ℝ → List ℝ × List (List ℝ)) :
    model × ((List ℝ × List ℝ × List ℝ × List ℝ × List ℝ × List ℝ) × List (List ℝ)) :=
  (m, m.fit fp solver)

/-- A concrete band-model state before any base call (cache fields still
absent). -/
def stBnd : model_bnd :=
  ⟨fun _ => 1, [0, 1, 2], [1, 1, 1], [], [1], fun x a => poly x a, 0, 0,
   none, none, none, none⟩

end

section

lemma normSum_length (l : List ℝ) : (normSum l).length = l.length := by
  simp [normSum]

lemma sum_map_div (l : List ℝ) (S : ℝ) : (l.map fun t => t / S).sum = l.sum / S := by
  induction l with
  | nil => simp
  | cons x xs ih => simp [ih, add_div]

lemma normSum_sum (l : List ℝ) (h : l.sum ≠ 0) : (normSum l).sum = 1 := by
  rw [normSum, sum_map_div, div_self h]

lemma erf_zero : erf 0 = 0 := by
  simp [erf]

/-- Claim C1: every kernel variant (Gaussian IP, super-Gaussian IP_sg,
asymmetric IP_ag, bi-Gaussian IP_bg, multi-central IP_mcg, Gaussian-spline
IP_mg), for any shape parameters whose pre-normalisation sum is non-zero,
returns an array of the same length as the input velocity grid whose
elements sum to 1. -/
theorem C1_kernels_unit_sum (vk : List ℝ) (s e a s1 s2 s0 a1 : ℝ) (am : List ℝ)
    (hg : (IP_raw vk s).sum ≠ 0) (hsg : (IP_sg_raw vk s e).sum ≠ 0)
    (hag : (IP_ag_raw vk s a).sum ≠ 0) (hbg : (IP_bg_raw vk s1 s2).sum ≠ 0)
    (hmcg : (IP_mcg_raw vk s0 a1).sum ≠ 0) (hmg : (IP_mg_raw vk am).sum ≠ 0) :
    ((IP vk s).length = vk.length ∧ (IP vk s).sum = 1) ∧
    ((IP_sg vk s e).length = vk.length ∧ (IP_sg vk s e).sum = 1) ∧
    ((IP_ag vk s a).length = vk.length ∧ (IP_ag vk s a).sum = 1) ∧
    ((IP_bg vk s1 s2).length = vk.length ∧ (IP_bg vk s1 s2).sum = 1) ∧
    ((IP_mcg vk s0 a1).length = vk.length ∧ (IP_mcg vk s0 a1).sum = 1) ∧
    ((IP_mg vk am).length = vk.length ∧ (IP_mg vk am).sum = 1) := by
  refine ⟨⟨?_, normSum_sum _ hg⟩, ⟨?_, normSum_sum _ hsg⟩, ⟨?_, normSum_sum _ hag⟩,
    ⟨?_, normSum_sum _ hbg⟩, ⟨?_, normSum_sum _ hmcg⟩, ⟨?_, normSum_sum _ hmg⟩⟩ <;>
    simp [IP, IP_sg, IP_ag, IP_bg, IP_mcg, IP_mg, normSum_length,
      IP_raw, IP_sg_raw, IP_ag_raw, IP_bg_raw, IP_mcg_raw, IP_mg_raw]

/-- Witness for C1 at the one-point grid vk = [0] with unit widths: all six
pre-normalisation sums are non-zero there, and the conclusion holds. -/
theorem C1_kernels_unit_sum_witness :
    ((IP_raw [0] 1).sum ≠ 0 ∧ (IP_sg_raw [0] 1 2).sum ≠ 0 ∧
     (IP_ag_raw [0] 1 0).sum ≠ 0 ∧ (IP_bg_raw [0] 1 1).sum ≠ 0 ∧
     (IP_mcg_raw [0] 1 0).sum ≠ 0 ∧ (IP_mg_raw [0] []).sum ≠ 0) ∧
    (((IP [0] 1).length = 1 ∧ (IP [0] 1).sum = 1) ∧
     ((IP_sg [0] 1 2).length = 1 ∧ (IP_sg [0] 1 2).sum = 1) ∧
     ((IP_ag [0] 1 0).length = 1 ∧ (IP_ag [0] 1 0).sum = 1) ∧
     ((IP_bg [0] 1 1).length = 1 ∧ (IP_bg [0] 1 1).sum = 1) ∧
     ((IP_mcg [0] 1 0).length = 1 ∧ (IP_mcg [0] 1 0).sum = 1) ∧
     ((IP_mg [0] []).length = 1 ∧ (IP_mg [0] []).sum = 1)) := by
  have hg : (IP_raw [0] 1).sum ≠ 0 := by norm_num [IP_raw]
  have hsg : (IP_sg_raw [0] 1 2).sum ≠ 0 := by
    norm_num [IP_sg_raw, Real.zero_rpow]
  have hag : (IP_ag_raw [0] 1 0).sum ≠ 0 := by
    norm_num [IP_ag_raw, erf_zero, Real.sqrt_one]
  have hbg : (IP_bg_raw [0] 1 1).sum ≠ 0 := by
    norm_num [IP_bg_raw]
  have hmcg : (IP_mcg_raw [0] 1 0).sum ≠ 0 := by
    norm_num [IP_mcg_raw]
  have hmg : (IP_mg_raw [0] []).sum ≠ 0 := by
    have hr : List.range 1 = [0] := rfl
    norm_num [IP_mg_raw, hr]
  exact ⟨⟨hg, hsg, hag, hbg, hmcg, hmg⟩,
    C1_kernels_unit_sum [0] 1 2 0 1 1 1 0 [] hg hsg hag hbg hmcg hmg⟩

lemma zip_append_same_length {α β : Type} (l : List α) (l2 : List β) (ex : List α)
    (h : l.length = l2.length) : (l ++ ex).zip l2 = l.zip l2 := by
  induction l generalizing l2 with
  | nil =>
    cases l2 with
    | nil => simp
    | cons b bs => simp at h
  | cons a as ih =>
    cases l2 with
    | nil => simp at h
    | cons b bs =>
      simp only [List.length_cons, Nat.add_right_cancel_iff] at h
      simp [ih bs h]

lemma getD_concat_last (l : List ℝ) (a d : ℝ) : (l ++ [a]).getD l.length d = a := by
  induction l with
  | nil => rfl
  | cons x xs ih => simp only [List.cons_append, List.length_cons, List.getD_cons_succ]; exact ih

lemma getD_set_ne (l : List ℝ) (i j : ℕ) (a d : ℝ) (h : i ≠ j) :
    (l.set i a).getD j d = l.getD j d := by
  induction l generalizing i j with
  | nil => rfl
  | cons x xs ih =>
    cases i with
    | zero =>
      cases j with
      | zero => exact absurd rfl h
      | succ j' => rfl
    | succ i' =>
      cases j with
      | zero => rfl
      | succ j' => simpa using ih i' j' (by omega)

lemma zip_take_length {α β : Type} (l : List α) (l2 : List β) :
    l.zip (l2.take l.length) = l.zip l2 := by
  induction l generalizing l2 with
  | nil => simp
  | cons a as ih =>
    cases l2 with
    | nil => simp
    | cons b bs => simp [ih bs]

lemma listMul_replicate_one (x : List ℝ) : listMul x (List.replicate x.length 1) = x := by
  induction x with
  | nil => rfl
  | cons a as ih =>
    simp only [List.length_cons, List.replicate_succ, listMul, List.zip_cons_cons,
      List.map_cons, mul_one]
    simp only [listMul] at ih
    rw [ih]

lemma absorberProd_neg_coeff (cs : List ℝ) (fl : List (List ℝ)) (i : ℕ) (init : List ℝ)
    (hi : i < cs.length) (hif : i < fl.length) :
    absorberProd init ((cs.set i (-(cs.getD i 0))).zip fl) = absorberProd init (cs.zip fl) := by
  induction cs generalizing i fl init with
  | nil => simp at hi
  | cons ch ct ih =>
    cases fl with
    | nil => simp at hif
    | cons f ft =>
      cases i with
      | zero => simp [absorberProd, abs_neg]
      | succ i' =>
        simp only [List.set_cons_succ, List.getD_cons_succ, List.zip_cons_cons, absorberProd]
        exact ih ft i' _ (by simpa using hi) (by simpa using hif)

lemma absorberProd_length (pairs : List (ℝ × List ℝ)) (init : List ℝ)
    (h : ∀ p ∈ pairs, p.2.length = init.length) :
    (absorberProd init pairs).length = init.length := by
  induction pairs generalizing init with
  | nil => rfl
  | cons p ps ih =>
    have hlen : (listMul init (p.2.map fun t => t ^ |p.1|)).length = init.length := by
      simp [listMul, h p (by simp)]
    rw [absorberProd, ih _ (fun q hq => by rw [hlen]; exact h q (by simp [hq]))]
    exact hlen

lemma convolveValid_length (a v : List ℝ) :
    (convolveValid a v).length = v.length + 1 - a.length := by
  simp [convolveValid]

lemma flux_atm_trunc (m : model) (cs : List ℝ) (h : cs.length < m.fluxes_molec.length)
    (hcs : cs ≠ []) : (m.truncAtm cs.length).flux_atm cs = m.flux_atm cs := by
  have hh : (m.fluxes_molec.take cs.length).headD [] = m.fluxes_molec.headD [] := by
    cases hfl : m.fluxes_molec with
    | nil => rw [hfl] at h; simp at h
    | cons f ft =>
      cases hcs' : cs with
      | nil => exact absurd hcs' hcs
      | cons ch ct => simp [List.take_succ_cons]
  unfold model.flux_atm model.truncAtm
  simp only [List.length_take, min_eq_left (le_of_lt h)]
  rw [if_neg (by omega), if_neg (by omega), zip_take_length, hh]

/-- Claim C8: the asymmetric (skewed) Gaussian kernel with asymmetry
parameter a = 0 coincides with the plain Gaussian kernel of the same width
on every velocity grid (exactly, in the real-number model). -/
theorem C8_asym_zero_is_gaussian (vk : List ℝ) (s : ℝ) : IP_ag vk s 0 = IP vk s := by
  have hraw : IP_ag_raw vk s 0 = IP_raw vk s := by
    unfold IP_ag_raw IP_raw
    norm_num [erf_zero, Real.sqrt_one]
  rw [IP_ag, IP, hraw]

/-- Claim C5: when one more absorber coefficient than absorber templates is
supplied, the evaluator treats the last coefficient v as a single shared
velocity shift of the combined absorber spectrum, realised by interpolation
in log-wavelength with offset log(1 + v/c); when the counts are equal, no
shift is applied.  Stated as a refinement: model.call agrees with the
specification-side evaluator model.call_spec that takes the optional shift
explicitly. -/
theorem C5_shared_shift (m : model) (pixel cn cw cip cb cs : List ℝ) (rv v : ℝ)
    (h : cs.length = m.fluxes_molec.length) :
    m.call pixel rv cn cw cip (cs ++ [v]) cb
      = m.call_spec pixel rv cn cw cip cs (some v) cb ∧
    m.call pixel rv cn cw cip cs cb
      = m.call_spec pixel rv cn cw cip cs none cb := by
  have hfa1 : m.flux_atm (cs ++ [v]) = m.flux_atm_spec cs (some v) := by
    unfold model.flux_atm model.flux_atm_spec
    rw [zip_append_same_length cs m.fluxes_molec [v] h]
    rw [if_pos (by simp [h])]
    have hlen : (cs ++ [v]).length - 1 = cs.length := by simp
    rw [hlen, getD_concat_last]
  have hfa2 : m.flux_atm cs = m.flux_atm_spec cs none := by
    unfold model.flux_atm model.flux_atm_spec
    rw [if_neg (by omega)]
  refine ⟨?_, ?_⟩ <;>
    simp [model.call, model.call_spec, model.convStep, model.convSignal,
      model.spec_gas, model.spec_gas_spec, hfa1, hfa2]

/-- Witness for C5 at the concrete model mSmall with one exponent per
absorber template and shift coefficient 5. -/
theorem C5_shared_shift_witness :
    ([(1 : ℝ), 2].length = mSmall.fluxes_molec.length) ∧
    (mSmall.call [0] 0 [1] [1] [] ([1, 2] ++ [5]) [0]
       = mSmall.call_spec [0] 0 [1] [1] [] [1, 2] (some 5) [0] ∧
     mSmall.call [0] 0 [1] [1] [] [1, 2] [0]
       = mSmall.call_spec [0] 0 [1] [1] [] [1, 2] none [0]) :=
  ⟨rfl, C5_shared_shift mSmall [0] [1] [1] [] [0] [1, 2] 0 5 rfl⟩

/-- Claim C6: each absorber template enters the combined absorber spectrum
raised to the absolute value of its coefficient, so the predicted spectrum
is invariant under flipping the sign of any absorber scaling coefficient
(the optional shared shift coefficient, which sits at index
fluxes_molec.length, excluded). -/
theorem C6_abs_coeff_sign_invariant (m : model) (pixel cn cw cip cb cs : List ℝ)
    (rv : ℝ) (i : ℕ) (hi : i < cs.length) (hif : i < m.fluxes_molec.length) :
    m.call pixel rv cn cw cip (cs.set i (-(cs.getD i 0))) cb
      = m.call pixel rv cn cw cip cs cb := by
  have hfa : m.flux_atm (cs.set i (-(cs.getD i 0))) = m.flux_atm cs := by
    unfold model.flux_atm
    rw [absorberProd_neg_coeff cs m.fluxes_molec i _ hi hif]
    rw [List.length_set]
    by_cases hb : cs.length = m.fluxes_molec.length + 1
    · rw [if_pos hb, if_pos hb, getD_set_ne _ _ _ _ _ (by omega)]
    · rw [if_neg hb, if_neg hb]
  simp only [model.call, model.convStep, model.convSignal, model.spec_gas, hfa]

/-- Witness for C6 at the concrete model mSmall, flipping the sign of the
first of the two absorber coefficients. -/
theorem C6_abs_coeff_sign_invariant_witness :
    ((0 : ℕ) < [(2 : ℝ), 3].length ∧ (0 : ℕ) < mSmall.fluxes_molec.length) ∧
    mSmall.call [0] 0 [1] [1] [] ([2, 3].set 0 (-([(2 : ℝ), 3].getD 0 0))) [0]
      = mSmall.call [0] 0 [1] [1] [] [2, 3] [0] :=
  ⟨⟨by norm_num, by norm_num [mSmall]⟩,
   C6_abs_coeff_sign_invariant mSmall [0] [1] [1] [] [0] [2, 3] 0 0
     (by norm_num) (by norm_num [mSmall])⟩

/-- Claim C10: when fewer absorber coefficients than absorber templates are
supplied, the evaluator silently uses only the first len(coeff_atm)
templates (zip truncation) and applies no velocity shift: the evaluation
equals that of the model whose absorber template list is truncated to the
first len(coeff_atm) entries. -/
theorem C10_fewer_coeffs_truncate (m : model) (pixel cn cw cip cb cs : List ℝ)
    (rv : ℝ) (h : cs.length < m.fluxes_molec.length)
    (hw : (m.fluxes_molec.headD []).length = m.spec_cell_j.length) :
    m.call pixel rv cn cw cip cs cb
      = (m.truncAtm cs.length).call pixel rv cn cw cip cs cb := by
  have hne : m.fluxes_molec ≠ [] := by
    intro hemp
    rw [hemp] at h
    simp at h
  have hsg : (m.truncAtm cs.length).spec_gas cs = m.spec_gas cs := by
    cases hcs : cs with
    | nil =>
      have hfa : m.flux_atm [] = List.replicate m.spec_cell_j.length 1 := by
        unfold model.flux_atm
        rw [if_neg (by simp)]
        simp [absorberProd]
        simpa using hw
      subst hcs
      unfold model.spec_gas model.truncAtm
      simp [hne, hfa, listMul_replicate_one]
    | cons ch ct =>
      rw [← hcs]
      have hcs' : cs ≠ [] := by simp [hcs]
      have hne' : (m.truncAtm cs.length).fluxes_molec ≠ [] := by
        simp only [model.truncAtm]
        simp [List.take_eq_nil_iff, hne, hcs]
      unfold model.spec_gas
      rw [if_neg hne, if_neg hne', flux_atm_trunc m cs h hcs']
      rfl
  have h1 : (m.truncAtm cs.length).S_star = m.S_star := rfl
  have h2 : (m.truncAtm cs.length).lnwave_j = m.lnwave_j := rfl
  have h3 : (m.truncAtm cs.length).IP = m.IP := rfl
  have h4 : (m.truncAtm cs.length).IP_hs = m.IP_hs := rfl
  have h5 : (m.truncAtm cs.length).xcen = m.xcen := rfl
  have h6 : (m.truncAtm cs.length).func_norm = m.func_norm := rfl
  have h7 : (m.truncAtm cs.length).spec_cell_j = m.spec_cell_j := rfl
  simp only [model.call, model.convStep, model.convSignal, model.vk, model.dx,
    model.lnwave_j_eff, h1, h2, h3, h4, h5, h6, h7, hsg]

/-- Witness for C10 at the concrete model mSmall with one coefficient for
its two absorber templates. -/
theorem C10_fewer_coeffs_truncate_witness :
    ([(2 : ℝ)].length < mSmall.fluxes_molec.length ∧
     (mSmall.fluxes_molec.headD []).length = mSmall.spec_cell_j.length) ∧
    mSmall.call [0] 0 [1] [1] [] [2] [0]
      = (mSmall.truncAtm 1).call [0] 0 [1] [1] [] [2] [0] :=
  ⟨⟨by norm_num [mSmall], by norm_num [mSmall]⟩,
   C10_fewer_coeffs_truncate mSmall [0] [1] [1] [] [0] [2] 0
     (by norm_num [mSmall]) (by norm_num [mSmall])⟩

lemma spec_gas_length (m : model) (cs : List ℝ)
    (hcell : m.spec_cell_j.length = m.lnwave_j.length)
    (hflux : ∀ fm ∈ m.fluxes_molec, fm.length = m.lnwave_j.length) :
    (m.spec_gas cs).length = m.lnwave_j.length := by
  unfold model.spec_gas
  by_cases hne : m.fluxes_molec = []
  · rw [if_pos hne]
    exact hcell
  · rw [if_neg hne]
    have hfa : (m.flux_atm cs).length = m.lnwave_j.length := by
      unfold model.flux_atm
      by_cases hb : cs.length = m.fluxes_molec.length + 1
      · rw [if_pos hb]
        simp
      · rw [if_neg hb]
        have hhead : (m.fluxes_molec.headD []).length = m.lnwave_j.length := by
          cases hfl : m.fluxes_molec with
          | nil => exact absurd hfl hne
          | cons f ft =>
            simpa [hfl, List.headD_eq_head?] using
              hflux f (by rw [hfl]; exact List.mem_cons_self f ft)
        simp only [List.headD_eq_head?] at hhead
        rw [absorberProd_length]
        · simp [hhead]
        · intro p hp
          have hmem := (List.of_mem_zip hp).2
          simp [hhead, hflux p.2 hmem]
    simp [listMul, hcell, hfa]

/-- Claim C2 (amended with IP_hs >= 1): for a model with a uniform grid of
length N > 2*IP_hs+1 and an IP kernel of length 2*IP_hs+1, the valid-mode
convolution step of the evaluator has length N - 2*IP_hs, which equals the
length of the effective grid lnwave_j_eff onto which the model is then
interpolated.  The amendment is forced: for IP_hs = 0 the Python slice
lnwave_j[0:-0] is empty and the lengths do not match (see the
counterexample theorem). -/
theorem C2_valid_convolution_length (m : model) (rv : ℝ) (cip cs cb : List ℝ)
    (hhs : 1 ≤ m.IP_hs) (hN : 2 * m.IP_hs + 1 < m.lnwave_j.length)
    (hcell : m.spec_cell_j.length = m.lnwave_j.length)
    (hflux : ∀ fm ∈ m.fluxes_molec, fm.length = m.lnwave_j.length)
    (hIP : (m.IP m.vk cip).length = 2 * m.IP_hs + 1) :
    (m.convStep rv cip cs cb).length = m.lnwave_j.length - 2 * m.IP_hs ∧
    m.lnwave_j_eff.length = m.lnwave_j.length - 2 * m.IP_hs := by
  constructor
  · rw [model.convStep, convolveValid_length, hIP]
    have hsig : (m.convSignal rv cs cb).length = m.lnwave_j.length := by
      rw [model.convSignal]
      simp [spec_gas_length m cs hcell hflux]
    rw [hsig]
    omega
  · rw [model.lnwave_j_eff, if_neg (by omega)]
    simp only [List.length_drop, List.length_take]
    omega

/-- Witness for the amended C2 at the concrete model mHsOne (grid length 4,
IP_hs = 1, Gaussian kernel of length 3): the convolution step and the
effective grid both have length 2. -/
theorem C2_valid_convolution_length_witness :
    (1 ≤ mHsOne.IP_hs ∧ 2 * mHsOne.IP_hs + 1 < mHsOne.lnwave_j.length ∧
     mHsOne.spec_cell_j.length = mHsOne.lnwave_j.length ∧
     (mHsOne.IP mHsOne.vk []).length = 2 * mHsOne.IP_hs + 1) ∧
    ((mHsOne.convStep 0 [] [] [0]).length = mHsOne.lnwave_j.length - 2 * mHsOne.IP_hs ∧
     mHsOne.lnwave_j_eff.length = mHsOne.lnwave_j.length - 2 * mHsOne.IP_hs) := by
  have h1 : 1 ≤ mHsOne.IP_hs := by norm_num [mHsOne]
  have h2 : 2 * mHsOne.IP_hs + 1 < mHsOne.lnwave_j.length := by norm_num [mHsOne]
  have h3 : mHsOne.spec_cell_j.length = mHsOne.lnwave_j.length := by norm_num [mHsOne]
  have h4 : ∀ fm ∈ mHsOne.fluxes_molec, fm.length = mHsOne.lnwave_j.length := by
    simp [mHsOne]
  have h5 : (mHsOne.IP mHsOne.vk []).length = 2 * mHsOne.IP_hs + 1 := by
    show (IP mHsOne.vk 1).length = 2 * mHsOne.IP_hs + 1
    unfold IP IP_raw
    rw [normSum_length, List.length_map]
    simp [model.vk]
  exact ⟨⟨h1, h2, h3, h5⟩, C2_valid_convolution_length mHsOne 0 [] [] [0] h1 h2 h3 h4 h5⟩

/-- Counterexample to C2 as stated: at the model mHsZero (IP_hs = 0, grid
length 4 > 2*0+1) the convolution step has length 4 = N - 2*IP_hs, but the
effective grid lnwave_j[0:-0] is the empty Python slice, so the convolution
output does not match the grid onto which the model is interpolated. -/
theorem C2_counterexample :
    2 * mHsZero.IP_hs + 1 < mHsZero.lnwave_j.length ∧
    (mHsZero.convStep 0 [] [] [0]).length = mHsZero.lnwave_j.length - 2 * mHsZero.IP_hs ∧
    mHsZero.lnwave_j_eff = [] ∧
    (mHsZero.convStep 0 [] [] [0]).length ≠ mHsZero.lnwave_j_eff.length := by
  have hconv : (mHsZero.convStep 0 [] [] [0]).length = 4 := by
    rw [model.convStep, convolveValid_length]
    have hk : (mHsZero.IP mHsZero.vk []).length = 1 := by
      show (IP mHsZero.vk 1).length = 1
      unfold IP IP_raw
      rw [normSum_length, List.length_map]
      simp [model.vk, mHsZero]
    have hs : (mHsZero.convSignal 0 [] [0]).length = 4 := by
      rw [model.convSignal, List.length_map, List.length_zip, model.spec_gas]
      norm_num [mHsZero]
    rw [hk, hs]
  have heff : mHsZero.lnwave_j_eff = [] := by
    simp [model.lnwave_j_eff, mHsZero]
  refine ⟨by norm_num [mHsZero], by rw [hconv]; norm_num [mHsZero], heff, ?_⟩
  rw [hconv, heff]
  norm_num

lemma sliceTup_start (v post : List ℝ) (b : ℕ) (hb : b = v.length) :
    sliceTup (v ++ post) 0 b = v := by
  subst hb
  unfold sliceTup
  rw [List.drop_zero, List.take_left]

lemma sliceTup_mid (pre v post : List ℝ) (a b : ℕ)
    (ha : a = pre.length) (hb : b = pre.length + v.length) :
    sliceTup (pre ++ (v ++ post)) a b = v := by
  subst ha
  subst hb
  unfold sliceTup
  rw [List.take_append, List.take_left, List.drop_left]

lemma sliceTup_end (pre v : List ℝ) (a b : ℕ)
    (ha : a = pre.length) (hb : b = pre.length + v.length) :
    sliceTup (pre ++ v) a b = v := by
  subst ha
  subst hb
  unfold sliceTup
  rw [List.take_append, List.take_length, List.drop_left]

lemma groupArgs_concat (fp : FitInput) (q1 q2 q3 q4 q5 q6 : List ℝ)
    (h1 : q1.length = fp.par_rv.length) (h2 : q2.length = fp.par_norm.length)
    (h3 : q3.length = fp.par_wave.length) (h4 : q4.length = fp.par_ip.length)
    (h5 : q5.length = fp.par_atm.length) (h6 : q6.length = fp.par_bkg.length) :
    fp.groupArgs (q1 ++ q2 ++ q3 ++ q4 ++ q5 ++ q6)
      = (q1 ++ fp.parfix_rv, q2 ++ fp.parfix_norm, q3 ++ fp.parfix_wave,
         q4 ++ fp.parfix_ip, q5 ++ fp.parfix_atm, q6 ++ fp.parfix_bkg) := by
  have e1 : sliceTup (q1 ++ q2 ++ q3 ++ q4 ++ q5 ++ q6) 0 q1.length = q1 := by
    have hQ : q1 ++ q2 ++ q3 ++ q4 ++ q5 ++ q6
        = q1 ++ (q2 ++ (q3 ++ (q4 ++ (q5 ++ q6)))) := by
      simp [List.append_assoc]
    rw [hQ]
    exact sliceTup_start q1 _ _ rfl
  have e2 : sliceTup (q1 ++ q2 ++ q3 ++ q4 ++ q5 ++ q6) q1.length
      (q1.length + q2.length) = q2 := by
    have hQ : q1 ++ q2 ++ q3 ++ q4 ++ q5 ++ q6
        = q1 ++ (q2 ++ (q3 ++ (q4 ++ (q5 ++ q6)))) := by
      simp [List.append_assoc]
    rw [hQ]
    exact sliceTup_mid q1 q2 _ _ _ rfl rfl
  have e3 : sliceTup (q1 ++ q2 ++ q3 ++ q4 ++ q5 ++ q6) (q1.length + q2.length)
      (q1.length + q2.length + q3.length) = q3 := by
    have hQ : q1 ++ q2 ++ q3 ++ q4 ++ q5 ++ q6
        = (q1 ++ q2) ++ (q3 ++ (q4 ++ (q5 ++ q6))) := by
      simp [List.append_assoc]
    rw [hQ]
    exact sliceTup_mid (q1 ++ q2) q3 _ _ _ (by simp only [List.length_append])
      (by simp only [List.length_append])
  have e4 : sliceTup (q1 ++ q2 ++ q3 ++ q4 ++ q5 ++ q6)
      (q1.length + q2.length + q3.length)
      (q1.length + q2.length + q3.length + q4.length) = q4 := by
    have hQ : q1 ++ q2 ++ q3 ++ q4 ++ q5 ++ q6
        = (q1 ++ q2 ++ q3) ++ (q4 ++ (q5 ++ q6)) := by
      simp [List.append_assoc]
    rw [hQ]
    exact sliceTup_mid (q1 ++ q2 ++ q3) q4 _ _ _ (by simp only [List.length_append])
      (by simp only [List.length_append])
  have e5 : sliceTup (q1 ++ q2 ++ q3 ++ q4 ++ q5 ++ q6)
      (q1.length + q2.length + q3.length + q4.length)
      (q1.length + q2.length + q3.length + q4.length + q5.length) = q5 := by
    have hQ : q1 ++ q2 ++ q3 ++ q4 ++ q5 ++ q6
        = (q1 ++ q2 ++ q3 ++ q4) ++ (q5 ++ q6) := by
      simp [List.append_assoc]
    rw [hQ]
    exact sliceTup_mid (q1 ++ q2 ++ q3 ++ q4) q5 _ _ _
      (by simp only [List.length_append]) (by simp only [List.length_append])
  have e6 : sliceTup (q1 ++ q2 ++ q3 ++ q4 ++ q5 ++ q6)
      (q1.length + q2.length + q3.length + q4.length + q5.length)
      (q1.length + q2.length + q3.length + q4.length + q5.length + q6.length) = q6 :=
    sliceTup_end (q1 ++ q2 ++ q3 ++ q4 ++ q5) q6 _ _
      (by simp only [List.length_append]) (by simp only [List.length_append])
  unfold FitInput.groupArgs FitInput.s6 FitInput.s5 FitInput.s4 FitInput.s3
    FitInput.s2 FitInput.s1
  rw [← h1, ← h2, ← h3, ← h4, ← h5, ← h6]
  rw [e1, e2, e3, e4, e5, e6]

/-- Claim C3: model.fit builds the flat solver vector by concatenating the
free groups in the order rv, continuum, wavelength, IP, absorber,
background, and for any flat vector of matching group lengths its closure
reassembles, for each group in that same order, the group's contiguous
slice of the flat vector followed by the group's fixed values; in
particular slicing the flat start vector back recovers exactly the free
groups, so position i of the flat vector (and hence row i of the
covariance) corresponds to the i-th free parameter in the fixed group
order. -/
theorem C3_fit_group_order (fp : FitInput) (q1 q2 q3 q4 q5 q6 : List ℝ)
    (h1 : q1.length = fp.par_rv.length) (h2 : q2.length = fp.par_norm.length)
    (h3 : q3.length = fp.par_wave.length) (h4 : q4.length = fp.par_ip.length)
    (h5 : q5.length = fp.par_atm.length) (h6 : q6.length = fp.par_bkg.length) :
    fp.p0 = fp.par_rv ++ fp.par_norm ++ fp.par_wave ++ fp.par_ip ++ fp.par_atm ++ fp.par_bkg ∧
    fp.groupArgs (q1 ++ q2 ++ q3 ++ q4 ++ q5 ++ q6)
      = (q1 ++ fp.parfix_rv, q2 ++ fp.parfix_norm, q3 ++ fp.parfix_wave,
         q4 ++ fp.parfix_ip, q5 ++ fp.parfix_atm, q6 ++ fp.parfix_bkg) ∧
    fp.groupArgs fp.p0
      = (fp.par_rv ++ fp.parfix_rv, fp.par_norm ++ fp.parfix_norm,
         fp.par_wave ++ fp.parfix_wave, fp.par_ip ++ fp.parfix_ip,
         fp.par_atm ++ fp.parfix_atm, fp.par_bkg ++ fp.parfix_bkg) :=
  ⟨rfl, groupArgs_concat fp q1 q2 q3 q4 q5 q6 h1 h2 h3 h4 h5 h6,
   groupArgs_concat fp fp.par_rv fp.par_norm fp.par_wave fp.par_ip fp.par_atm
     fp.par_bkg rfl rfl rfl rfl rfl rfl⟩

/-- Witness for C3 at a concrete parameter partition with distinguishable
group values and lengths 1, 2, 1, 1, 2, 1. -/
theorem C3_fit_group_order_witness :
    (([(10 : ℝ)].length = (FitInput.mk [9] [1, 2] [3] [4] [5, 6] [7] [] [11] [] [] [] [12]).par_rv.length) ∧
     ([(20 : ℝ), 21].length = (FitInput.mk [9] [1, 2] [3] [4] [5, 6] [7] [] [11] [] [] [] [12]).par_norm.length)) ∧
    (FitInput.mk [9] [1, 2] [3] [4] [5, 6] [7] [] [11] [] [] [] [12]).groupArgs
        ([10] ++ [20, 21] ++ [30] ++ [40] ++ [50, 51] ++ [60])
      = ([10] ++ [], [20, 21] ++ [11], [30] ++ [], [40] ++ [], [50, 51] ++ [], [60] ++ [12]) :=
  ⟨⟨rfl, rfl⟩,
   (C3_fit_group_order (FitInput.mk [9] [1, 2] [3] [4] [5, 6] [7] [] [11] [] [] [] [12])
     [10] [20, 21] [30] [40] [50, 51] [60] rfl rfl rfl rfl rfl rfl).2.1⟩

/-- Counterexample to C4 as stated, at the claim's own two-chunk scenario
realised with a raising solver: the chunk loop of viper.py has no exception
handling, so a chunk whose fit raises aborts the loop and no aggregate is
produced at all (the remaining chunk is not processed). -/
theorem C4_counterexample :
    ¬ ∃ res, runChunks [Except.error "RuntimeError", Except.ok (some 3, some (1 / 5))]
        = Except.ok res := by
  simp [runChunks]

/-- Claim C4 (amended): a chunk failure that surfaces as a non-finite
covariance (non-finite e_rv) is excluded from the aggregate, which is the
mean of the remaining chunks' RVs with standard error std/sqrt(count-1);
in the two-chunk scenario with one non-finite-covariance chunk and one
valid chunk with RV = 3.0 the aggregate RV is 3.0.  When no fit raises,
every chunk is processed.  A solver raise, however, aborts the whole loop
(see the counterexample), and the failed chunk's RV is never set: exclusion
keys on the uncertainty, not on the RV value. -/
theorem C4_aggregate_skips_invalid :
    (∀ r s : ℝ, (aggregateRVs [(some r, none), (some 3, some s)]).1 = some 3) ∧
    (∀ l, runChunks (l.map Except.ok) = Except.ok l) ∧
    aggregateRVs [(some 3, some 1), (some 5, some 1)] = (some 4, some 1) := by
  refine ⟨?_, ?_, ?_⟩
  · intro r s
    norm_num [aggregateRVs, meanO, seqO]
  · intro l
    induction l with
    | nil => rfl
    | cons a as ih => simp [runChunks, ih, Except.map]
  · have hseq : seqO [some 3, some 5] = some [(3 : ℝ), 5] := rfl
    have hmean : meanO [some 3, some 5] = some 4 := by
      rw [meanO, hseq]
      norm_num
      intro hx
      simp at hx
    have hstd : stdO [some 3, some 5] = some 1 := by
      rw [stdO, hseq]
      norm_num [Real.sqrt_eq_one]
      intro hx
      simp at hx
    simp only [aggregateRVs]
    norm_num [hmean, hstd, divO, sqrtO, Real.sqrt_one]

/-- Counterexample to C7 as stated: the six staged fits of fit_chunk free
1, 4, 6, 6, 7 and 10 parameters, so the step from stage 3 (S_vab) to stage
4 (S_va) does not introduce strictly more free parameters; consequently the
conjunction of strict growth with previous-stage seeding fails. -/
theorem C7_counterexample :
    ¬ (List.Chain' (fun a b : ℕ => a < b) (stageFreeParams.map List.length) ∧
       ∀ p_vab : List ℝ, p_vab.length = 6 → p0_stage4 p_vab = p_vab) := by
  intro h
  have hgrow := h.1
  have hc : stageFreeParams.map List.length = [1, 4, 6, 6, 7, 10] := rfl
  rw [hc] at hgrow
  norm_num [List.chain'_cons] at hgrow

/-- Claim C7 (amended): the staged free-parameter counts 1, 4, 6, 6, 7, 10
are nondecreasing (stages 3 and 4 free the same six parameters); stage 3
seeds the wavelength coefficients from the polynomial prior (p0_stage3
drops to bg, not to the stage-2 fit); stage 4 re-uses only the stage-3
wavelength coefficients p_vab[2:6] while resetting rv and continuum; stage
5 seeds all its shared parameters from the full stage-4 result; stage 6
seeds rv and the leading continuum coefficient from p_vabs[:2] and the
wavelength and IP-width parameters from p_vabs[2:], with the three new
continuum coefficients starting at zero. -/
theorem C7_staged_seeding (bg p_vab p_va p_vabs : List ℝ) (h7 : p_vabs.length = 7) :
    List.Chain' (fun a b : ℕ => a ≤ b) (stageFreeParams.map List.length) ∧
    (p0_stage3 bg).drop 2 = bg ∧
    (p0_stage4 p_vab).drop 2 = (p_vab.drop 2).take 4 ∧
    (p0_stage4 p_vab).take 2 = [v0, 1] ∧
    (p0_stage5 p_va).take p_va.length = p_va ∧
    (p0_stage6 p_vabs).take 2 = p_vabs.take 2 ∧
    (p0_stage6 p_vabs).drop 5 = p_vabs.drop 2 := by
  have hc : stageFreeParams.map List.length = [1, 4, 6, 6, 7, 10] := rfl
  refine ⟨by rw [hc]; norm_num [List.chain'_cons], rfl, rfl, rfl,
    List.take_left p_va [2.2], ?_, ?_⟩
  · have hl : (p_vabs.take 2).length = 2 := by
      rw [List.length_take]
      omega
    rw [p0_stage6, List.append_assoc]
    calc (p_vabs.take 2 ++ ([0, 0, 0] ++ p_vabs.drop 2)).take 2
        = (p_vabs.take 2 ++ ([0, 0, 0] ++ p_vabs.drop 2)).take (p_vabs.take 2).length := by
          rw [hl]
      _ = p_vabs.take 2 := List.take_left _ _
  · have hl : (p_vabs.take 2 ++ [0, 0, 0]).length = 5 := by
      rw [List.length_append, List.length_take]
      simp
      omega
    rw [p0_stage6]
    calc (p_vabs.take 2 ++ [0, 0, 0] ++ p_vabs.drop 2).drop 5
        = (p_vabs.take 2 ++ [0, 0, 0] ++ p_vabs.drop 2).drop
            (p_vabs.take 2 ++ [0, 0, 0]).length := by rw [hl]
      _ = p_vabs.drop 2 := List.drop_left _ _

/-- Counterexample to C9 as stated: model_bnd.Axk called with base kwargs
(here x = [0], degk = 1, sig_k = 1, at the state stBnd) overwrites the
cached base arrays on the object, so the evaluation does not leave all
fields unchanged — the x field changes from absent to some [0]. -/
theorem C9_counterexample : (stBnd.Axk 0 (some ([0], 1, 1))).1 ≠ stBnd := by
  intro h
  have hx := congrArg model_bnd.x h
  simp [model_bnd.Axk, model_bnd.base, stBnd] at hx

/-- Claim C9 (amended): model.__call__ and model.fit leave the model object
unchanged; model_bnd.Axk and model_bnd.fit leave the state unchanged when
no base kwargs are passed; and when base kwargs are passed they overwrite
only the cached base-function fields (x, bnd, BBxjl, Bxk), while the
template interpolant, the log-wavelength grid, the cell spectrum, the
absorber templates, the IP slot, IP_hs and xcen stay unchanged.
Evaluations that pass base kwargs while sharing one model_bnd object are
therefore not independent (see the counterexample); plain model
evaluations are. -/
theorem C9_no_hidden_state (m : model) (pixel : List ℝ) (rv : ℝ)
    (cn cw cip cs cb : List ℝ) (fp : FitInput)
    (solver : (List ℝ → List ℝ → List ℝ) → List ℝ → List ℝ × List (List ℝ))
    (st : model_bnd) (v : ℝ) (f : List ℝ) (ba : List ℝ × ℕ × ℝ)
    (lstsq : List (List (List ℝ)) → List ℝ → List ℝ) :
    (m.callSt pixel rv cn cw cip cs cb).1 = m ∧
    (m.fitSt fp solver).1 = m ∧
    (st.Axk v none).1 = st ∧
    (st.fit f v none lstsq).1 = st ∧
    ((st.Axk v (some ba)).1.S_star = st.S_star ∧
     (st.Axk v (some ba)).1.lnwave_j = st.lnwave_j ∧
     (st.Axk v (some ba)).1.spec_cell_j = st.spec_cell_j ∧
     (st.Axk v (some ba)).1.fluxes_molec = st.fluxes_molec ∧
     (st.Axk v (some ba)).1.IP = st.IP ∧
     (st.Axk v (some ba)).1.IP_hs = st.IP_hs ∧
     (st.Axk v (some ba)).1.xcen = st.xcen) :=
  ⟨rfl, rfl, rfl, rfl, rfl, rfl, rfl, rfl, rfl, rfl, rfl⟩

/-- Witness for the amended C7 at concrete stage outputs of the required
lengths. -/
theorem C7_staged_seeding_witness :
    ([(0 : ℝ), 1, 2, 3, 4, 5, 6].length = 7) ∧
    ((p0_stage3 [8, 9]).drop 2 = [8, 9] ∧
     (p0_stage6 [0, 1, 2, 3, 4, 5, 6]).drop 5 = ([(0 : ℝ), 1, 2, 3, 4, 5, 6]).drop 2) :=
  ⟨rfl,
   ⟨(C7_staged_seeding [8, 9] [] [] [0, 1, 2, 3, 4, 5, 6] rfl).2.1,
    (C7_staged_seeding [8, 9] [] [] [0, 1, 2, 3, 4, 5, 6] rfl).2.2.2.2.2.2⟩⟩

end

end CriresRV
